import Mathlib

/-!
Verification of the rate-limited, acknowledgment-aware job delivery pipeline
of wardix/waqdlvr (src/app.ts, plus an alternate variant of the same pipeline).

The TypeScript source is shallowly embedded:
- the external delivery-channel adapter (the WhatsApp client) is a record of
  result-valued functions; a call that throws is modelled as `Except.error`;
- the effects a function performs (adapter calls, broker ack/nack, timers,
  scheduled re-runs) are collected into explicit traces;
- timestamps are integers (milliseconds, as produced by `Date.now()`; the
  values involved are far below 2^53, so JS number arithmetic is exact);
- the module-level mutable `lastProcessedTimeStamp` becomes an explicit
  state record threaded through the consumer loop.
-/

/-- Options carried by a job (src/app.ts lines 32-34): an optional caption. -/
structure JobOptions where
  caption : Option String
deriving DecidableEq

/-- Job, the unit of work decoded from a queue message (src/app.ts lines 28-35). -/
structure Job where
  toAddr : String
  type : String
  msg : String
  options : Option JobOptions
deriving DecidableEq

/-- Payload handed to the delivery channel: either plain text, or a media
payload built from a MIME type and base64 data together with the job options
(src/app.ts lines 169-175). -/
inductive Payload where
  | text (msg : String)
  | media (mime : String) (data : String) (options : Option JobOptions)
deriving DecidableEq

/-- One call made to the delivery-channel adapter, recorded in a trace:
the existence check `client.isRegisteredUser(to)` or a
`client.sendMessage(to, payload)`. -/
inductive AdapterCall where
  | checkRegistered (addr : String)
  | send (addr : String) (p : Payload)
deriving DecidableEq

/-- Behaviour of the delivery-channel adapter for one processing pass.
An `Except.error` result models the underlying call throwing. -/
structure Adapter where
  isRegisteredUser : String → Except String Bool
  sendMessage : String → Payload → Except String Unit

/-- Characters the JavaScript regex metacharacter dot matches: anything but a
line terminator. -/
def isRegexDot (c : Char) : Bool :=
  c != Char.ofNat 10 && c != Char.ofNat 13 &&
    c != Char.ofNat 0x2028 && c != Char.ofNat 0x2029

/-- Embedding of `msg.match(/^data:([^;]);base64,(.+)$/)` from src/app.ts
line 168.  Note the character class `([^;])` is unquantified, so it consumes
exactly ONE character: the MIME capture is a single character.  `(.+)`
requires a nonempty remainder free of line terminators, and the anchors pin
the whole string.  Returns the two captures on a match. -/
def mediaMatch (msg : String) : Option (String × String) :=
  match msg.data with
  | 'd' :: 'a' :: 't' :: 'a' :: ':' :: c :: ';' :: 'b' :: 'a' :: 's' :: 'e'
      :: '6' :: '4' :: ',' :: ds =>
    if c != ';' && !ds.isEmpty && ds.all isRegexDot then
      some (String.mk [c], String.mk ds)
    else
      none
  | _ => none

/-- Embedding of JavaScript `s.endsWith(suffix)`. -/
def strEndsWith (s suffix : String) : Bool :=
  List.isSuffixOf suffix.data s.data

/-- Recipient normalization from src/app.ts line 159:
`job.to.endsWith(".us") ? job.to : job.to + "@c.us"`. -/
def normalizeTo (addr : String) : String :=
  if strEndsWith addr (".us") then addr else addr ++ ("@c.us")

/-- Modelled from the spec (section 4.3 / claim C4 wording): the
spec-described normalization, to compare with `normalizeTo` from the source.
A recipient already ending with the multi-recipient/group suffix `@g.us` is
used unchanged; otherwise the canonical single-user suffix `@c.us` is
appended. -/
def normalizeToSpec (addr : String) : String :=
  if strEndsWith addr ("@g.us") then addr else addr ++ ("@c.us")

/-- Payload selection from src/app.ts lines 167-175: for a media-type job
whose body matches the data-URI regex, a media payload from the captures and
the job options; otherwise the body as plain text. -/
def jobPayload (job : Job) : Payload :=
  match (if job.type == ("media") then mediaMatch job.msg else none) with
  | some (mime, data) => Payload.media mime data job.options
  | none => Payload.text job.msg

/-- Embedding of `processJob` (src/app.ts lines 153-183).  Returns the
boolean outcome together with the trace of adapter calls made.  The source
returns `false` when the client is not ready, `true` when a single-user
recipient is not registered, `true` after a send that completes, and `false`
from the catch block when the existence check or the send throws. -/
def processJob (waReady : Bool) (ad : Adapter) (job : Job) :
    Bool × List AdapterCall :=
  if !waReady then
    (false, [])
  else
    let addr := normalizeTo job.toAddr
    if strEndsWith addr ("@c.us") then
      match ad.isRegisteredUser addr with
      | Except.error _ => (false, [AdapterCall.checkRegistered addr])
      | Except.ok false => (true, [AdapterCall.checkRegistered addr])
      | Except.ok true =>
        match ad.sendMessage addr (jobPayload job) with
        | Except.error _ =>
          (false, [AdapterCall.checkRegistered addr,
                   AdapterCall.send addr (jobPayload job)])
        | Except.ok _ =>
          (true, [AdapterCall.checkRegistered addr,
                  AdapterCall.send addr (jobPayload job)])
    else
      match ad.sendMessage addr (jobPayload job) with
      | Except.error _ => (false, [AdapterCall.send addr (jobPayload job)])
      | Except.ok _ => (true, [AdapterCall.send addr (jobPayload job)])

/-- Broker acknowledgment primitive invoked for a message: `channel.ack` or
`channel.nack`. -/
inductive BrokerAck where
  | ack
  | nack
deriving DecidableEq

/-- Embedding of `handleJobOutcome` (src/app.ts lines 140-146): the single
broker primitive it invokes for the message, as a function of the boolean
delivery outcome. -/
def handleJobOutcome (proceed : Bool) : BrokerAck :=
  if proceed then BrokerAck.ack else BrokerAck.nack

/-- Scheduler state: the module-level mutable `lastProcessedTimeStamp`
(src/app.ts line 40), initialized at process start to `Date.now()`. -/
structure MsgState where
  lastProcessedTimeStamp : Int
deriving DecidableEq

/-- Decision taken by `processMessage` for one delivered message: nothing
(null message), process the job immediately, or arm a `setTimeout` for
`delay` milliseconds and process the job when it fires. -/
inductive ConsumeStep where
  | noop
  | processNow (job : Job)
  | deferProcess (delay : Int) (job : Job)
deriving DecidableEq

/-- Embedding of the scheduling part of `processMessage`
(src/app.ts lines 120-138).  `rateLimitTimeMs` is `+process.env.RATE_LIMIT_TIME_MS`,
`now` is `Date.now()` at entry, and the message is `none` for a null
delivery, `some job` for a decoded job.  The source computes
`elapsed = now - lastProcessedTimeStamp` and defers by
`rateLimitTimeMs - elapsed` when `elapsed < rateLimitTimeMs`; it contains no
assignment to `lastProcessedTimeStamp`, so the state component of the result
is the input state unchanged. -/
def processMessage (rateLimitTimeMs : Int) (st : MsgState) (now : Int)
    (message : Option Job) : ConsumeStep × MsgState :=
  match message with
  | none => (ConsumeStep.noop, st)
  | some job =>
    let elapsed := now - st.lastProcessedTimeStamp
    if elapsed < rateLimitTimeMs then
      (ConsumeStep.deferProcess (rateLimitTimeMs - elapsed) job, st)
    else
      (ConsumeStep.processNow job, st)

/-- Wall-clock instant at which the processing decided by a `ConsumeStep`
begins: immediately at `now`, or when the timer armed at `now` fires
(`now + delay`, within timer resolution); `none` for a null message. -/
def stepStartTime (now : Int) : ConsumeStep → Option Int
  | ConsumeStep.noop => none
  | ConsumeStep.processNow _ => some now
  | ConsumeStep.deferProcess d _ => some (now + d)

/-- Consumer loop run over a sequence of deliveries, each an arrival instant
paired with the (already decoded) message, threading the scheduler state
through `processMessage` exactly as the module-level variable is. -/
def runConsumer (rateLimitTimeMs : Int) (st : MsgState) :
    List (Int × Option Job) → List ConsumeStep × MsgState
  | [] => ([], st)
  | (now, m) :: rest =>
    let r := processMessage rateLimitTimeMs st now m
    let rr := runConsumer rateLimitTimeMs r.2 rest
    (r.1 :: rr.1, rr.2)

/-- One observable action of the full pipeline for a message: an adapter
call made by `processJob`, the broker settle primitive invoked by
`handleJobOutcome`, or the arming of the spacing timer. -/
inductive PipelineAction where
  | adapter (c : AdapterCall)
  | settle (a : BrokerAck)
  | timerSet (delay : Int)
deriving DecidableEq

/-- Whether a pipeline action is an invocation of a broker ack/nack
primitive. -/
def isSettle : PipelineAction → Bool
  | PipelineAction.settle _ => true
  | _ => false

/-- Processing continuation shared by both branches of `processMessage`
(src/app.ts lines 129-132 and 136-137): run `processJob`, then hand the
outcome to `handleJobOutcome`. -/
def runJobAndSettle (waReady : Bool) (ad : Adapter) (job : Job) :
    List PipelineAction :=
  let r := processJob waReady ad job
  r.2.map PipelineAction.adapter ++
    [PipelineAction.settle (handleJobOutcome r.1)]

/-- Full action trace of `processMessage` for one delivered message,
combining the scheduling decision with the processing continuation.  The
`MsgState` component is the scheduler state after the whole pass. -/
def consumeMessage (rateLimitTimeMs : Int) (st : MsgState) (now : Int)
    (m : Option Job) (waReady : Bool) (ad : Adapter) :
    List PipelineAction × MsgState :=
  match processMessage rateLimitTimeMs st now m with
  | (ConsumeStep.noop, st2) => ([], st2)
  | (ConsumeStep.processNow job, st2) =>
    (runJobAndSettle waReady ad job, st2)
  | (ConsumeStep.deferProcess d job, st2) =>
    (PipelineAction.timerSet d :: runJobAndSettle waReady ad job, st2)

/-- Action performed by the connection supervisor: a log line, the
`setTimeout(main, delay)` armed by `reconnectAfterDelay`, or the successful
registration of the consumer. -/
inductive SupAction where
  | logError (m : String)
  | logWarn (m : String)
  | logInfo (m : String)
  | scheduleRun (delay : Int)
  | consumeStarted
deriving DecidableEq

/-- Default reconnect delay of `reconnectAfterDelay` (src/app.ts line 148):
1000 milliseconds. -/
def reconnectDelayDefault : Int := 1000

/-- Embedding of `reconnectAfterDelay(func, delay)` (src/app.ts lines
148-151) with `func = main` at every call site: log, then arm
`setTimeout(main, delay)`. -/
def reconnectAfterDelay (delay : Int) : List SupAction :=
  [SupAction.logInfo ("Reconnecting..."), SupAction.scheduleRun delay]

/-- Outcome of each broker setup step awaited or called inside the try block
of `main` (src/app.ts lines 100-113): `Except.error` models the step
throwing into the try (for `channel.consume`, whose returned promise is not
awaited, this is its synchronous throw). -/
structure BrokerEnv where
  amqpConnect : Except String Unit
  createChannel : Except String Unit
  assertQueue : Except String Unit
  channelPrefetch : Except String Unit
  channelConsume : Except String Unit

/-- Whether an adapter or broker step result models a thrown exception. -/
def isErr {α : Type} : Except String α → Bool
  | Except.error _ => true
  | Except.ok _ => false

/-- Embedding of `main` (src/app.ts lines 99-118; named `mainRun` here because
Lean reserves `main` for an executable entry point) as the trace of supervisor
actions of one run: the setup steps run in source order inside the try; the
first one that throws reaches the catch block, which logs and calls
`reconnectAfterDelay(main)`; when all succeed the consumer is registered.
The function is total and its action type has no throw or process-exit
action: a run of `main` always returns normally. -/
def mainRun (env : BrokerEnv) : List SupAction :=
  match env.amqpConnect with
  | Except.error e =>
    SupAction.logError (("AMQP error: ") ++ e) ::
      reconnectAfterDelay reconnectDelayDefault
  | Except.ok _ =>
  match env.createChannel with
  | Except.error e =>
    SupAction.logError (("AMQP error: ") ++ e) ::
      reconnectAfterDelay reconnectDelayDefault
  | Except.ok _ =>
  match env.assertQueue with
  | Except.error e =>
    SupAction.logError (("AMQP error: ") ++ e) ::
      reconnectAfterDelay reconnectDelayDefault
  | Except.ok _ =>
  match env.channelPrefetch with
  | Except.error e =>
    SupAction.logError (("AMQP error: ") ++ e) ::
      reconnectAfterDelay reconnectDelayDefault
  | Except.ok _ =>
  match env.channelConsume with
  | Except.error e =>
    SupAction.logError (("AMQP error: ") ++ e) ::
      reconnectAfterDelay reconnectDelayDefault
  | Except.ok _ => [SupAction.consumeStarted]

/-- Embedding of the connection error-event handler registered by `main`
(src/app.ts lines 102-105): log the error, then `reconnectAfterDelay(main)`;
the handler returns normally. -/
def onConnectionError (e : String) : List SupAction :=
  SupAction.logError (("AMQP error: ") ++ e) ::
    reconnectAfterDelay reconnectDelayDefault

/-- Embedding of the connection close-event handler registered by `main`
(src/app.ts lines 106-109): log a warning, then `reconnectAfterDelay(main)`;
the handler returns normally. -/
def onConnectionClose : List SupAction :=
  SupAction.logWarn ("AMQP connection closed") ::
    reconnectAfterDelay reconnectDelayDefault

/-- Sample text job used in concrete evaluations: the spec section 8
scenario `{to:"5551234", type:"text", msg:"hello"}`. -/
def jobA : Job := ⟨("5551234"), ("text"), ("hello"), none⟩

/-- Second sample text job, for the back-to-back scenario. -/
def jobB : Job := ⟨("5559876"), ("text"), ("hi"), none⟩

/-- Media job whose body is a well-formed data URI with a realistic
multi-character MIME type. -/
def jobMediaPng : Job :=
  ⟨("5551234"), ("media"), ("data:image/png;base64,iVBORw0KGgo"), none⟩

/-- Adapter for which every recipient exists and every send completes. -/
def adapterOk : Adapter :=
  ⟨fun _ => Except.ok true, fun _ _ => Except.ok ()⟩

/-- Adapter reporting that no recipient is registered; sends complete. -/
def adapterUnknownUser : Adapter :=
  ⟨fun _ => Except.ok false, fun _ _ => Except.ok ()⟩

/-- Adapter whose existence check throws. -/
def adapterCheckThrows : Adapter :=
  ⟨fun _ => Except.error ("net"), fun _ _ => Except.ok ()⟩

/-- Adapter whose existence check succeeds and whose send throws. -/
def adapterSendThrows : Adapter :=
  ⟨fun _ => Except.ok true, fun _ _ => Except.error ("net")⟩

/-- Broker environment in which the initial connect throws. -/
def envConnectFails : BrokerEnv :=
  ⟨Except.error ("down"), Except.ok (), Except.ok (), Except.ok (), Except.ok ()⟩


/-- Helper: `processMessage` returns its scheduler state unchanged -- the
source body contains no assignment to `lastProcessedTimeStamp`. -/
theorem processMessage_preserves_state (L : Int) (st : MsgState) (now : Int)
    (m : Option Job) : (processMessage L st now m).2 = st := by
  unfold processMessage
  cases m with
  | none => rfl
  | some job =>
    by_cases h : now - st.lastProcessedTimeStamp < L <;> simp [h]

/-- Helper: the consumer loop run preserves the scheduler state across any
sequence of deliveries. -/
theorem runConsumer_preserves_state (L : Int) (st : MsgState)
    (msgs : List (Int × Option Job)) : (runConsumer L st msgs).2 = st := by
  induction msgs generalizing st with
  | nil => rfl
  | cons p rest ih =>
    cases p with
    | mk now m =>
      simp [runConsumer, ih, processMessage_preserves_state]

/-- Helper: the full pipeline pass for one message preserves the scheduler
state. -/
theorem consumeMessage_preserves_state (L : Int) (st : MsgState) (now : Int)
    (m : Option Job) (w : Bool) (ad : Adapter) :
    (consumeMessage L st now m w ad).2 = st := by
  unfold consumeMessage
  have hp := processMessage_preserves_state L st now m
  rcases hq : processMessage L st now m with ⟨step, st2⟩
  rw [hq] at hp
  cases step <;> simpa using hp

/-- Helper: adapter calls mapped into the pipeline trace contain no broker
settle action. -/
theorem filter_isSettle_adapter (l : List AdapterCall) :
    (l.map PipelineAction.adapter).filter isSettle = [] := by
  induction l with
  | nil => rfl
  | cons a t ih => simp [List.filter, isSettle, ih]

/-- Helper: the processing continuation settles exactly once, with the
primitive chosen by `handleJobOutcome` from the `processJob` outcome. -/
theorem filter_isSettle_runJobAndSettle (w : Bool) (ad : Adapter) (job : Job) :
    (runJobAndSettle w ad job).filter isSettle =
      [PipelineAction.settle (handleJobOutcome (processJob w ad job).1)] := by
  unfold runJobAndSettle
  simp [List.filter_append, filter_isSettle_adapter, List.filter, isSettle]

/-- Helper: the full pipeline trace for a non-null message settles exactly
once, via `handleJobOutcome` applied to the `processJob` outcome, whether the
processing ran immediately or after the spacing timer. -/
theorem consumeMessage_settle_trace (L : Int) (st : MsgState) (now : Int)
    (job : Job) (w : Bool) (ad : Adapter) :
    (consumeMessage L st now (some job) w ad).1.filter isSettle =
      [PipelineAction.settle (handleJobOutcome (processJob w ad job).1)] := by
  unfold consumeMessage processMessage
  by_cases h : now - st.lastProcessedTimeStamp < L
  · simp [h, List.filter, isSettle, filter_isSettle_runJobAndSettle]
  · simp [h, filter_isSettle_runJobAndSettle]

/-- Claim C1 (failing-input evaluation).  The spacing invariant does not
hold on the code: with `RATE_LIMIT_TIME_MS = 2000` and the scheduler state
initialized to 0 at process start, two back-to-back deliveries arriving at
t=100 and t=200 are both deferred -- because `lastProcessedTimeStamp` is
never updated, both timers are computed against process start and both fire
at t=2000, so the second attempt starts 0 ms (not at least 2000 ms) after
the first. -/
theorem C1_spacing_invariant_violated :
    (runConsumer 2000 ⟨0⟩ [(100, some jobA), (200, some jobB)]).1 =
      [ConsumeStep.deferProcess 1900 jobA, ConsumeStep.deferProcess 1800 jobB] ∧
    stepStartTime 100 (ConsumeStep.deferProcess 1900 jobA) = some 2000 ∧
    stepStartTime 200 (ConsumeStep.deferProcess 1800 jobB) = some 2000 ∧
    (2000 : Int) - 2000 < 2000 := by
  refine ⟨?_, rfl, rfl, by decide⟩
  rfl

/-- Claim C2 (failing-input evaluation).  With `RATE_LIMIT_TIME_MS = 2000`
and the scheduler state initialized to 0, a message handled at t=5000 is
processed immediately, yet the returned state still carries
`lastProcessedTimeStamp = 0`: the code contains no assignment updating it to
the current time when processing begins. -/
theorem C2_timestamp_never_updated :
    processMessage 2000 ⟨0⟩ 5000 (some jobA) =
      (ConsumeStep.processNow jobA, ⟨0⟩) := by
  rfl

/-- Claim C3 (failing-input evaluation).  The media regex captures exactly
one character for the MIME type, so a well-formed data URI with the
realistic MIME type image/png does not match and the body is degraded to
plain text, while a single-character MIME does match; the claim as the spec
states it expects the image/png body to be sent as a media payload. -/
theorem C3_multichar_mime_degrades_to_text :
    mediaMatch ("data:image/png;base64,iVBORw0KGgo") = none ∧
    jobPayload jobMediaPng =
      Payload.text ("data:image/png;base64,iVBORw0KGgo") ∧
    processJob true adapterOk jobMediaPng =
      (true, [AdapterCall.checkRegistered ("5551234@c.us"),
              AdapterCall.send ("5551234@c.us")
                (Payload.text ("data:image/png;base64,iVBORw0KGgo"))]) ∧
    mediaMatch ("data:i;base64,AAAA") = some (("i"), ("AAAA")) := by
  refine ⟨rfl, rfl, rfl, rfl⟩

/-- Claim C4 counterexample.  The recipient `example.us` does not end with
the multi-recipient/group suffix `@g.us` (indeed it carries no domain suffix
at all), so under the claim it would be normalized to `example.us@c.us`; the
code checks only for the `.us` ending and passes it through unchanged. -/
theorem C4_counterexample_plain_dot_us :
    strEndsWith ("example.us") ("@g.us") = false ∧
    normalizeTo ("example.us") = ("example.us") ∧
    normalizeToSpec ("example.us") = ("example.us") ++ ("@c.us") ∧
    normalizeTo ("example.us") ≠ normalizeToSpec ("example.us") := by
  refine ⟨rfl, rfl, rfl, by decide⟩

/-- Claim C4 (amended).  Recipient normalization in `processJob`: a `to`
already ending in `.us` (which covers the group suffix `@g.us`, the
single-user suffix `@c.us`, and any other `.us` ending) is used unchanged;
any other `to` gets the canonical single-user suffix `@c.us` appended. -/
theorem C4_normalization_amended (addr : String) :
    (strEndsWith addr (".us") = true → normalizeTo addr = addr) ∧
    (strEndsWith addr (".us") = false →
      normalizeTo addr = addr ++ ("@c.us")) := by
  constructor <;> intro h <;> simp [normalizeTo, h]

/-- Witness for the amended claim C4 at the two concrete recipients
`123@g.us` and `5551234`. -/
theorem C4_normalization_amended_witness :
    normalizeTo ("123@g.us") = ("123@g.us") ∧
    normalizeTo ("5551234") = ("5551234") ++ ("@c.us") :=
  ⟨(C4_normalization_amended ("123@g.us")).1 (by decide),
   (C4_normalization_amended ("5551234")).2 (by decide)⟩

/-- Claim C5.  When the delivery channel adapter reports not-ready
(`waReady` false), `processJob` returns `false` (requeue) and performs no
adapter call at all: neither an existence check nor a send. -/
theorem C5_not_ready_requeues_without_adapter_calls (ad : Adapter)
    (job : Job) : processJob false ad job = (false, []) := by
  rfl

/-- Claim C6.  For a job whose normalized recipient ends in the single-user
suffix `@c.us`, when the channel is ready and the adapter reports the
recipient is not registered, `processJob` returns `true` (acknowledge and
discard) and its adapter trace contains only the existence check -- no send
is attempted. -/
theorem C6_unregistered_user_discarded_without_send (ad : Adapter) (job : Job)
    (h1 : strEndsWith (normalizeTo job.toAddr) ("@c.us") = true)
    (h2 : ad.isRegisteredUser (normalizeTo job.toAddr) = Except.ok false) :
    processJob true ad job =
      (true, [AdapterCall.checkRegistered (normalizeTo job.toAddr)]) := by
  simp [processJob, h1, h2]

/-- Witness for claim C6: the spec scenario recipient `5551234` with an
adapter reporting the user unregistered. -/
theorem C6_unregistered_user_discarded_without_send_witness :
    processJob true adapterUnknownUser jobA =
      (true, [AdapterCall.checkRegistered (normalizeTo jobA.toAddr)]) :=
  C6_unregistered_user_discarded_without_send adapterUnknownUser jobA
    (by decide) rfl

/-- Claim C7.  Adapter fault policy of `processJob` with the channel ready:
an exception thrown by the existence check yields outcome `false`; an
exception thrown by the send yields outcome `false`; a send that completes
yields outcome `true`.  `processJob` is a total function into a boolean
outcome (its result type has no exception alternative), which embeds the
fact that the source catches every adapter fault and never re-throws it. -/
theorem C7_adapter_fault_policy (ad : Adapter) (job : Job) :
    (∀ e, strEndsWith (normalizeTo job.toAddr) ("@c.us") = true →
      ad.isRegisteredUser (normalizeTo job.toAddr) = Except.error e →
      (processJob true ad job).1 = false) ∧
    (∀ e, (strEndsWith (normalizeTo job.toAddr) ("@c.us") = true →
        ad.isRegisteredUser (normalizeTo job.toAddr) = Except.ok true) →
      ad.sendMessage (normalizeTo job.toAddr) (jobPayload job) =
        Except.error e →
      (processJob true ad job).1 = false) ∧
    ((strEndsWith (normalizeTo job.toAddr) ("@c.us") = true →
        ad.isRegisteredUser (normalizeTo job.toAddr) = Except.ok true) →
      ad.sendMessage (normalizeTo job.toAddr) (jobPayload job) =
        Except.ok () →
      (processJob true ad job).1 = true) := by
  refine ⟨?_, ?_, ?_⟩
  · intro e hend hreg
    simp [processJob, hend, hreg]
  · intro e hreg hsend
    by_cases hend : strEndsWith (normalizeTo job.toAddr) ("@c.us") = true
    · simp [processJob, hend, hreg hend, hsend]
    · simp only [Bool.not_eq_true] at hend
      simp [processJob, hend, hsend]
  · intro hreg hsend
    by_cases hend : strEndsWith (normalizeTo job.toAddr) ("@c.us") = true
    · simp [processJob, hend, hreg hend, hsend]
    · simp only [Bool.not_eq_true] at hend
      simp [processJob, hend, hsend]

/-- Witness for claim C7: the three scenarios at the spec scenario job, with
an adapter whose check throws, one whose send throws, and one that
delivers. -/
theorem C7_adapter_fault_policy_witness :
    (processJob true adapterCheckThrows jobA).1 = false ∧
    (processJob true adapterSendThrows jobA).1 = false ∧
    (processJob true adapterOk jobA).1 = true :=
  ⟨(C7_adapter_fault_policy adapterCheckThrows jobA).1 ("net")
      (by decide) rfl,
   (C7_adapter_fault_policy adapterSendThrows jobA).2.1 ("net")
      (fun _ => rfl) rfl,
   (C7_adapter_fault_policy adapterOk jobA).2.2 (fun _ => rfl) rfl⟩

/-- Claim C8.  For every non-null delivered message, the pipeline trace
invokes exactly one broker settle primitive; that primitive is the one
`handleJobOutcome` picks from the `processJob` outcome (`ack` for `true`,
`nack` for `false`); and it is the only settle action in the whole trace, so
no component other than `handleJobOutcome` invokes ack or nack. -/
theorem C8_exactly_one_settle_via_handleJobOutcome (L now : Int)
    (st : MsgState) (job : Job) (w : Bool) (ad : Adapter) :
    ((consumeMessage L st now (some job) w ad).1.filter isSettle).length
        = 1 ∧
    (consumeMessage L st now (some job) w ad).1.filter isSettle =
      [PipelineAction.settle (handleJobOutcome (processJob w ad job).1)] ∧
    handleJobOutcome true = BrokerAck.ack ∧
    handleJobOutcome false = BrokerAck.nack := by
  refine ⟨?_, consumeMessage_settle_trace L st now job w ad, rfl, rfl⟩
  rw [consumeMessage_settle_trace L st now job w ad]
  rfl

/-- Claim C9.  Every broker fault leads the supervisor to schedule its own
re-run after the fixed 1000 ms delay and to return normally: the
connection error-event handler, the close-event handler, and a run of
`main` in which any of the setup steps (connect, channel creation, queue
declaration, prefetch, consume registration) throws all end by arming
`setTimeout(main, 1000)`.  Totality of the trace functions, whose action
type has no throw or process-exit alternative, embeds that no fault is
re-thrown and the process is never terminated. -/
theorem C9_supervisor_reconnects_after_fixed_delay (e : String)
    (env : BrokerEnv)
    (h : (isErr env.amqpConnect || isErr env.createChannel ||
          isErr env.assertQueue || isErr env.channelPrefetch ||
          isErr env.channelConsume) = true) :
    (onConnectionError e).getLast? = some (SupAction.scheduleRun 1000) ∧
    onConnectionClose.getLast? = some (SupAction.scheduleRun 1000) ∧
    (mainRun env).getLast? = some (SupAction.scheduleRun 1000) := by
  refine ⟨rfl, rfl, ?_⟩
  rcases env with ⟨c1, c2, c3, c4, c5⟩
  cases c1 <;> cases c2 <;> cases c3 <;> cases c4 <;> cases c5 <;>
    simp_all [mainRun, reconnectAfterDelay, reconnectDelayDefault, isErr]

/-- Witness for claim C9: a broker environment whose initial connect
throws. -/
theorem C9_supervisor_reconnects_after_fixed_delay_witness :
    (mainRun envConnectFails).getLast? = some (SupAction.scheduleRun 1000) :=
  (C9_supervisor_reconnects_after_fixed_delay ("gone") envConnectFails
    (by decide)).2.2

/-- Claim C10.  The scheduler state is frozen: a consumer-loop run over any
sequence of deliveries, and a full pipeline pass over any single message
(which contains the `processJob` and `handleJobOutcome` calls), return the
initial state unchanged -- nothing in the pipeline writes
`lastProcessedTimeStamp` after its initialization; consequently a message
handled at least `RATE_LIMIT_TIME_MS` after process start is processed
immediately, with no deferred delay, however recent the previous job was. -/
theorem C10_timestamp_frozen_immediate_processing (L start now : Int)
    (msgs : List (Int × Option Job)) (w : Bool) (ad : Adapter)
    (m : Option Job) (job : Job) (h : L ≤ now - start) :
    (runConsumer L ⟨start⟩ msgs).2 = ⟨start⟩ ∧
    (consumeMessage L ⟨start⟩ now m w ad).2 = ⟨start⟩ ∧
    (processMessage L ⟨start⟩ now (some job)).1 =
      ConsumeStep.processNow job := by
  refine ⟨runConsumer_preserves_state L ⟨start⟩ msgs,
    consumeMessage_preserves_state L ⟨start⟩ now m w ad, ?_⟩
  unfold processMessage
  simp [not_lt.mpr h]

/-- Witness for claim C10: limit 2000, process start at 0, an earlier
delivery at t=100, and a message handled at t=5000 processed immediately. -/
theorem C10_timestamp_frozen_immediate_processing_witness :
    (runConsumer 2000 ⟨0⟩ [(100, some jobA)]).2 = ⟨0⟩ ∧
    (consumeMessage 2000 ⟨0⟩ 5000 (some jobA) true adapterOk).2 = ⟨0⟩ ∧
    (processMessage 2000 ⟨0⟩ 5000 (some jobA)).1 =
      ConsumeStep.processNow jobA :=
  C10_timestamp_frozen_immediate_processing 2000 0 5000 [(100, some jobA)]
    true adapterOk (some jobA) jobA (by decide)
